import Mathlib

/-!
Verification of the counseling-chat service (`app.py`, `ai_db.py`, `ai_chat.py`,
`chat_msg_db.py`).  Strings are modelled as `List Char` (Python strings are
sequences of code points, and Python `len`/slicing count code points).  The
generative capability (OpenAI chat completion) is modelled as an opaque oracle
`List Char → Except (List Char) (List Char)`: `ok` is the returned message
content, `error e` is a raised exception with message `e`.
-/

namespace TestChatPy

/-- Python whitespace predicate used by `str.strip()` / `str.rstrip()`
(restricted to the ASCII whitespace characters, which are the only
whitespace characters that occur in this code base). -/
def isPySpace (c : Char) : Bool :=
  c = ' ' || c = '\t' || c = '\n' || c = '\r' || c = '\x0b' || c = '\x0c'

/-- Python `s.rstrip()`: remove trailing whitespace. -/
def pyRStrip (l : List Char) : List Char :=
  (l.reverse.dropWhile isPySpace).reverse

/-- Python `s.strip()`: remove leading and trailing whitespace. -/
def pyStrip (l : List Char) : List Char :=
  pyRStrip (l.dropWhile isPySpace)

/-- Does `hay` start with `needle`? (element-wise comparison). -/
def startsWithL : List Char → List Char → Bool
  | _, [] => true
  | [], _ :: _ => false
  | a :: as, b :: bs => a = b && startsWithL as bs

/-- Does `needle` occur in `hay` starting at position `i`? -/
def matchAt (hay needle : List Char) (i : Nat) : Bool :=
  startsWithL (hay.drop i) needle

/-- Scan downward from position `n` for the highest match of `needle`. -/
def rfindFrom (hay needle : List Char) : Nat → Int
  | 0 => if matchAt hay needle 0 then 0 else -1
  | n + 1 => if matchAt hay needle (n + 1) then ((n : Int) + 1) else rfindFrom hay needle n

/-- Python `hay.rfind(needle)`: highest index at which `needle` occurs in
`hay`, `-1` if it does not occur. -/
def rfind (hay needle : List Char) : Int :=
  rfindFrom hay needle hay.length

/-- Python `hay.find(needle)`: lowest index at which `needle` occurs in
`hay`, `-1` if it does not occur. -/
def pyFind (hay needle : List Char) : Int :=
  match (List.range (hay.length + 1)).find? (fun i => matchAt hay needle i) with
  | some i => (i : Int)
  | none => -1

/-- Python `"\n".join(lines)`. -/
def joinLines (ls : List (List Char)) : List Char :=
  List.intercalate ['\n'] ls

/-- The prioritized Korean sentence separators of
`_truncate_korean_sentence_boundary` (`app.py` line 228):
`["\n", ". ", "…", "!", "?", "。", "다.", "요.", "니다.", "."]`. -/
def seps : List (List Char) :=
  [['\n'], ['.', ' '], ['…'], ['!'], ['?'], ['。'],
   ['다', '.'], ['요', '.'], ['니', '다', '.'], ['.']]

/-- The loop of `_truncate_korean_sentence_boundary` computing `cut`:
start from `-1`, and for each separator replace `cut` by `head.rfind(sep)`
whenever that index is larger. -/
def findCut (head : List Char) : Int :=
  seps.foldl (fun cut sep => let idx := rfind head sep; if idx > cut then idx else cut) (-1)

/-- `_truncate_korean_sentence_boundary(text, limit)` (`app.py` lines 217-244). -/
def truncateKoreanSentenceBoundary (text : List Char) (limit : Nat) : List Char :=
  let t := pyStrip text
  if t.length ≤ limit then t
  else
    let head := t.take limit
    let cut := findCut head
    if cut ≥ 0 then
      let trimmed := pyStrip (head.take (cut + 1).toNat)
      if trimmed ≠ [] then trimmed else pyStrip head
    else
      let ws := rfind head [' ']
      if ws > 0 then pyStrip (head.take ws.toNat) else pyStrip head

/-- The six single-character sentence-terminal markers.  Every separator in
`seps` contains one of these characters, and each of these characters is
itself a separator, so the rightmost separator occurrence in a prefix starts
exactly at the rightmost occurrence of one of these characters. -/
def isTerminalMarker (c : Char) : Bool :=
  c = '\n' || c = '…' || c = '!' || c = '?' || c = '。' || c = '.'

/-- Is the character at index `j` of `l` a terminal marker? -/
def markerAt (l : List Char) (j : Nat) : Bool :=
  (l.get? j).any isTerminalMarker

end TestChatPy

namespace TestChatPy

/-! ### Basic lemmas about the Python string helpers -/

theorem dropWhile_head_not {p : Char → Bool} :
    ∀ {l a r}, List.dropWhile p l = a :: r → p a = false := by
  intro l
  induction l with
  | nil => intro a r h; simp [List.dropWhile] at h
  | cons x xs ih =>
      intro a r h
      by_cases hx : p x
      · rw [List.dropWhile_cons, if_pos hx] at h
        exact ih h
      · rw [List.dropWhile_cons, if_neg hx] at h
        cases h
        simpa using hx

theorem dropWhile_eq_drop (p : Char → Bool) :
    ∀ l : List Char, ∃ k, List.dropWhile p l = l.drop k ∧ k ≤ l.length := by
  intro l
  induction l with
  | nil => exact ⟨0, rfl, by simp⟩
  | cons x xs ih =>
      by_cases hx : p x
      · obtain ⟨k, hk, hkle⟩ := ih
        refine ⟨k + 1, ?_, by simpa using hkle⟩
        rw [List.dropWhile_cons, if_pos hx, hk]
        rfl
      · exact ⟨0, by rw [List.dropWhile_cons, if_neg hx]; rfl, by simp⟩

theorem length_dropWhile_le (p : Char → Bool) (l : List Char) :
    (List.dropWhile p l).length ≤ l.length := by
  obtain ⟨k, hk, -⟩ := dropWhile_eq_drop p l
  rw [hk]
  simp

theorem pyRStrip_length_le (l : List Char) : (pyRStrip l).length ≤ l.length := by
  unfold pyRStrip
  calc (l.reverse.dropWhile isPySpace).reverse.length
      = (l.reverse.dropWhile isPySpace).length := by simp
    _ ≤ l.reverse.length := length_dropWhile_le _ _
    _ = l.length := by simp

theorem pyStrip_length_le (l : List Char) : (pyStrip l).length ≤ l.length := by
  unfold pyStrip
  calc (pyRStrip (l.dropWhile isPySpace)).length
      ≤ (l.dropWhile isPySpace).length := pyRStrip_length_le _
    _ ≤ l.length := length_dropWhile_le _ _

/-- `pyRStrip` only removes elements from the end: it is `take k` for some `k`. -/
theorem pyRStrip_eq_take (l : List Char) : ∃ k, pyRStrip l = l.take k := by
  obtain ⟨k, hk, hkle⟩ := dropWhile_eq_drop isPySpace l.reverse
  refine ⟨l.length - k, ?_⟩
  unfold pyRStrip
  rw [hk, List.reverse_drop]
  simp

theorem head?_take_pos {l : List Char} {n : Nat} (h : 0 < n) :
    (l.take n).head? = l.head? := by
  cases l with
  | nil => simp
  | cons a r =>
      cases n with
      | zero => exact absurd h (by simp)
      | succ m => simp

/-- The first character of a stripped string is not whitespace. -/
theorem pyStrip_head_not_space {l : List Char} {a : Char} {r : List Char}
    (h : pyStrip l = a :: r) : isPySpace a = false := by
  unfold pyStrip at h
  obtain ⟨k, hk⟩ := pyRStrip_eq_take (l.dropWhile isPySpace)
  rw [hk] at h
  have hkpos : 0 < k := by
    by_contra hc
    rw [Nat.eq_zero_of_not_pos hc] at h
    simp at h
  have : (l.dropWhile isPySpace).head? = some a := by
    rw [← head?_take_pos hkpos, h]
    rfl
  cases hdw : l.dropWhile isPySpace with
  | nil => rw [hdw] at this; simp at this
  | cons b s =>
      rw [hdw] at this
      simp at this
      rw [← this]
      exact dropWhile_head_not hdw

/-- A string whose first and last characters are not whitespace is unchanged
by `pyStrip`. -/
theorem pyStrip_eq_self {l : List Char}
    (h1 : ∀ a, l.head? = some a → isPySpace a = false)
    (h2 : ∀ b, l.getLast? = some b → isPySpace b = false) :
    pyStrip l = l := by
  cases l with
  | nil => rfl
  | cons a r =>
      have ha : isPySpace a = false := h1 a rfl
      unfold pyStrip
      rw [List.dropWhile_cons, if_neg (by simp [ha])]
      unfold pyRStrip
      cases hrev : (a :: r).reverse with
      | nil => simp at hrev
      | cons b s =>
          have hb : isPySpace b = false := by
            apply h2
            rw [← List.head?_reverse, hrev]
            rfl
          have hds : List.dropWhile isPySpace (b :: s) = b :: s := by
            rw [List.dropWhile_cons, if_neg (by simp [hb])]
          calc (List.dropWhile isPySpace (b :: s)).reverse
              = (b :: s).reverse := by rw [hds]
            _ = (a :: r).reverse.reverse := by rw [hrev]
            _ = a :: r := List.reverse_reverse _

end TestChatPy

namespace TestChatPy

/-! ### Lemmas about `rfind`, `findCut` and the truncation -/

theorem take_length_le_self (n : Nat) (l : List Char) : (List.take n l).length ≤ l.length := by
  rw [List.length_take]; exact min_le_right _ _

theorem matchAt_lt_length {hay : List Char} {b : Char} {bs : List Char} {i : Nat}
    (h : matchAt hay (b :: bs) i = true) : i < hay.length := by
  apply List.length_lt_of_drop_ne_nil
  intro hnil
  unfold matchAt at h
  rw [hnil] at h
  simp [startsWithL] at h

theorem startsWithL_get : ∀ {xs ys : List Char}, startsWithL xs ys = true →
    ∀ d, d < ys.length → xs.get? d = ys.get? d := by
  intro xs
  induction xs with
  | nil =>
      intro ys h d hd
      cases ys with
      | nil => simp at hd
      | cons b bs => simp [startsWithL] at h
  | cons a as ih =>
      intro ys h d hd
      cases ys with
      | nil => simp at hd
      | cons b bs =>
          rw [startsWithL, Bool.and_eq_true] at h
          cases d with
          | zero =>
              have : a = b := by simpa using h.1
              simp [this]
          | succ d' => exact ih h.2 d' (by simpa using hd)

theorem matchAt_get {hay nd : List Char} {i : Nat} (h : matchAt hay nd i = true) :
    ∀ d, d < nd.length → hay.get? (i + d) = nd.get? d := by
  intro d hd
  unfold matchAt at h
  have := startsWithL_get h d hd
  rwa [List.get?_drop] at this

theorem matchAt_single {hay : List Char} {c : Char} {i : Nat}
    (h : hay.get? i = some c) : matchAt hay [c] i = true := by
  unfold matchAt
  have h0 : (hay.drop i).get? 0 = some c := by
    rw [List.get?_drop]; simpa using h
  cases hd : hay.drop i with
  | nil => rw [hd] at h0; simp at h0
  | cons x xs =>
      rw [hd] at h0
      have : x = c := by simpa using h0
      simp [startsWithL, this]

theorem rfindFrom_cases (hay nd : List Char) :
    ∀ n, rfindFrom hay nd n = -1 ∨
      ∃ k, k ≤ n ∧ rfindFrom hay nd n = (k : Int) ∧ matchAt hay nd k = true := by
  intro n
  induction n with
  | zero =>
      by_cases h : matchAt hay nd 0
      · right; exact ⟨0, Nat.le_refl 0, by simp [rfindFrom, h], h⟩
      · left; simp [rfindFrom, h]
  | succ m ih =>
      by_cases h : matchAt hay nd (m + 1)
      · right
        refine ⟨m + 1, Nat.le_refl _, ?_, h⟩
        simp [rfindFrom, h]
      · have heq : rfindFrom hay nd (m + 1) = rfindFrom hay nd m := by
          simp [rfindFrom, h]
        rw [heq]
        rcases ih with h1 | ⟨k, hk, he, hm⟩
        · left; exact h1
        · right; exact ⟨k, Nat.le_trans hk (Nat.le_succ m), he, hm⟩

theorem le_rfindFrom {hay nd : List Char} {k : Nat} :
    ∀ n, k ≤ n → matchAt hay nd k = true → (k : Int) ≤ rfindFrom hay nd n := by
  intro n
  induction n with
  | zero =>
      intro hk hm
      have hk0 : k = 0 := Nat.le_zero.1 hk
      subst hk0
      simp [rfindFrom, hm]
  | succ m ih =>
      intro hk hm
      by_cases h : matchAt hay nd (m + 1)
      · rw [show rfindFrom hay nd (m + 1) = ((m : Int) + 1) by simp [rfindFrom, h]]
        omega
      · have hkm : k ≤ m := by
          rcases Nat.lt_or_ge k (m + 1) with h1 | h1
          · omega
          · exfalso
            have : k = m + 1 := Nat.le_antisymm hk h1
            rw [this] at hm
            exact h hm
        rw [show rfindFrom hay nd (m + 1) = rfindFrom hay nd m by simp [rfindFrom, h]]
        exact ih hkm hm

/-- The max-accumulating step of the `cut` loop, without the `let`. -/
def rmaxStep (g : List Char → Int) (cut : Int) (sep : List Char) : Int :=
  if g sep > cut then g sep else cut

theorem findCut_eq (head : List Char) :
    findCut head = seps.foldl (rmaxStep (rfind head)) (-1) := rfl

theorem foldl_rmax_le {g : List Char → Int} {b : Int} :
    ∀ (l : List (List Char)) (a : Int), a ≤ b → (∀ s ∈ l, g s ≤ b) →
      l.foldl (rmaxStep g) a ≤ b := by
  intro l
  induction l with
  | nil => intro a ha _; simpa using ha
  | cons x xs ih =>
      intro a ha hall
      rw [List.foldl_cons]
      apply ih
      · unfold rmaxStep
        by_cases h : g x > a
        · rw [if_pos h]; exact hall x (List.mem_cons_self x xs)
        · rw [if_neg h]; exact ha
      · intro s hs; exact hall s (List.mem_cons_of_mem x hs)

theorem init_le_foldl_rmax {g : List Char → Int} :
    ∀ (l : List (List Char)) (a : Int), a ≤ l.foldl (rmaxStep g) a := by
  intro l
  induction l with
  | nil => intro a; simp
  | cons x xs ih =>
      intro a
      rw [List.foldl_cons]
      refine le_trans ?_ (ih (rmaxStep g a x))
      unfold rmaxStep
      by_cases h : g x > a
      · rw [if_pos h]; exact le_of_lt h
      · rw [if_neg h]

theorem le_foldl_rmax {g : List Char → Int} :
    ∀ (l : List (List Char)) (a : Int) {s : List Char}, s ∈ l →
      g s ≤ l.foldl (rmaxStep g) a := by
  intro l
  induction l with
  | nil => intro a s hs; simp at hs
  | cons x xs ih =>
      intro a s hs
      rw [List.foldl_cons]
      rcases List.mem_cons.1 hs with h | h
      · subst h
        refine le_trans ?_ (init_le_foldl_rmax xs (rmaxStep g a s))
        unfold rmaxStep
        by_cases hgs : g s > a
        · rw [if_pos hgs]
        · rw [if_neg hgs]; omega
      · exact ih _ h

end TestChatPy

namespace TestChatPy

/-- Every separator contains a terminal-marker character. -/
theorem seps_have_marker : seps.all (fun s => s.any isTerminalMarker) = true := by decide

/-- If every terminal-marker position of `head` is at most `i`, then every
separator's `rfind` is at most `i`. -/
theorem rfind_le_of_max_marker {head : List Char} {i : Nat}
    (hmax : ∀ j, markerAt head j = true → j ≤ i)
    {sep : List Char} (hsep : sep ∈ seps) :
    rfind head sep ≤ (i : Int) := by
  rcases rfindFrom_cases head sep head.length with h | ⟨k, _, he, hm⟩
  · show rfindFrom head sep head.length ≤ (i : Int)
    rw [h]
    omega
  · have hany : sep.any isTerminalMarker = true :=
      List.all_eq_true.1 seps_have_marker sep hsep
    obtain ⟨c, hcmem, hcm⟩ := List.any_eq_true.1 hany
    obtain ⟨d, hd⟩ := List.get?_of_mem hcmem
    have hdlt : d < sep.length := (List.get?_eq_some.1 hd).1
    have hget : head.get? (k + d) = some c := by
      rw [matchAt_get hm d hdlt, hd]
    have hmk : markerAt head (k + d) = true := by
      unfold markerAt
      rw [hget]
      simpa using hcm
    have hkd : k + d ≤ i := hmax _ hmk
    show rfindFrom head sep head.length ≤ (i : Int)
    rw [he]
    omega

theorem le_rfind_single {head : List Char} {c : Char} {i : Nat}
    (h : head.get? i = some c) : (i : Int) ≤ rfind head [c] := by
  have hm := matchAt_single h
  have hlt : i < head.length := (List.get?_eq_some.1 h).1
  exact le_rfindFrom head.length (Nat.le_of_lt hlt) hm

/-- A non-newline terminal marker, as a singleton string, is one of the separators. -/
theorem single_marker_mem_seps {c : Char} (hc : isTerminalMarker c = true)
    (hnl : c ≠ '\n') : [c] ∈ seps := by
  have : ((((c = '\n' ∨ c = '…') ∨ c = '!') ∨ c = '?') ∨ c = '。') ∨ c = '.' := by
    simpa [isTerminalMarker] using hc
  rcases this with ((((h | h) | h) | h) | h) | h
  · exact absurd h hnl
  all_goals subst h; decide

theorem marker_not_space {c : Char} (hc : isTerminalMarker c = true)
    (hnl : c ≠ '\n') : isPySpace c = false := by
  have : ((((c = '\n' ∨ c = '…') ∨ c = '!') ∨ c = '?') ∨ c = '。') ∨ c = '.' := by
    simpa [isTerminalMarker] using hc
  rcases this with ((((h | h) | h) | h) | h) | h
  · exact absurd h hnl
  all_goals subst h; decide

end TestChatPy

namespace TestChatPy

/-- C2 (amended).  Let `t` be the stripped input, with `t` longer than 300.
If the rightmost terminal-marker character within the first 300 characters
of `t` sits at index `i` and is not a newline, then the fallback truncation
returns exactly the prefix `t.take (i+1)`, whose last character is that
marker.  (The multi-character separators of the prioritized set are subsumed:
each contains one of the single-character markers, so the rightmost separator
occurrence starts at the rightmost marker character.) -/
theorem truncate_ends_at_rightmost_marker (text : List Char) (i : Nat) (c : Char)
    (hlen : 300 < (pyStrip text).length)
    (hget : ((pyStrip text).take 300).get? i = some c)
    (hc : isTerminalMarker c = true)
    (hnl : c ≠ '\n')
    (hmax : ∀ j, j < 300 → markerAt ((pyStrip text).take 300) j = true → j ≤ i) :
    truncateKoreanSentenceBoundary text 300 = (pyStrip text).take (i + 1) ∧
      ((pyStrip text).take (i + 1)).getLast? = some c := by
  have hheadlen : ((pyStrip text).take 300).length = 300 := by
    rw [List.length_take]
    omega
  have hilt : i < 300 := by
    have := (List.get?_eq_some.1 hget).1
    omega
  have hti : (pyStrip text).get? i = some c := by
    rw [← List.get?_take hilt]
    exact hget
  -- the rightmost-marker hypothesis, without the index bound
  have hmax2 : ∀ j, markerAt ((pyStrip text).take 300) j = true → j ≤ i := by
    intro j hj
    by_cases hj3 : j < 300
    · exact hmax j hj3 hj
    · exfalso
      unfold markerAt at hj
      cases hjg : ((pyStrip text).take 300).get? j with
      | none => rw [hjg] at hj; simp at hj
      | some d =>
          have := (List.get?_eq_some.1 hjg).1
          omega
  -- the cut of the separator loop is exactly i
  have hcut : findCut ((pyStrip text).take 300) = (i : Int) := by
    rw [findCut_eq]
    apply le_antisymm
    · exact foldl_rmax_le seps (-1) (by omega)
        (fun s hs => rfind_le_of_max_marker hmax2 hs)
    · exact le_trans (le_rfind_single hget)
        (le_foldl_rmax seps (-1) (single_marker_mem_seps hc hnl))
  -- the prefix up to and including the marker
  have htake : ((pyStrip text).take 300).take (i + 1) = (pyStrip text).take (i + 1) := by
    rw [List.take_take]
    congr 1
    omega
  have htakelen : ((pyStrip text).take (i + 1)).length = i + 1 := by
    rw [List.length_take]
    omega
  have hlast : ((pyStrip text).take (i + 1)).getLast? = some c := by
    rw [List.getLast?_eq_get?, htakelen]
    simp only [Nat.add_sub_cancel]
    rw [List.get?_take (Nat.lt_succ_self i)]
    exact hti
  -- stripping the prefix is the identity
  have hstrip : pyStrip ((pyStrip text).take (i + 1)) = (pyStrip text).take (i + 1) := by
    apply pyStrip_eq_self
    · intro a ha
      rw [head?_take_pos (Nat.succ_pos i)] at ha
      cases hts : pyStrip text with
      | nil => rw [hts] at ha; simp at ha
      | cons x r =>
          rw [hts] at ha
          simp at ha
          rw [← ha]
          exact pyStrip_head_not_space hts
    · intro b hb
      rw [hlast] at hb
      cases hb
      exact marker_not_space hc hnl
  have hne : (pyStrip text).take (i + 1) ≠ [] := by
    intro h
    rw [h] at htakelen
    simp at htakelen
  refine ⟨?_, hlast⟩
  simp only [truncateKoreanSentenceBoundary]
  rw [if_neg (by omega : ¬ (pyStrip text).length ≤ 300)]
  rw [hcut]
  rw [if_pos (by omega : (i : Int) ≥ 0)]
  have hnat : ((i : Int) + 1).toNat = i + 1 := by omega
  rw [hnat, htake, hstrip, if_pos hne]

end TestChatPy

namespace TestChatPy

/-- The deterministic fallback truncation never returns more than `limit`
characters. -/
theorem truncate_length_le (text : List Char) (limit : Nat) :
    (truncateKoreanSentenceBoundary text limit).length ≤ limit := by
  simp only [truncateKoreanSentenceBoundary]
  by_cases h1 : (pyStrip text).length ≤ limit
  · rw [if_pos h1]; exact h1
  · rw [if_neg h1]
    have hhead : ((pyStrip text).take limit).length ≤ limit := List.length_take_le _ _
    by_cases h2 : findCut ((pyStrip text).take limit) ≥ 0
    · rw [if_pos h2]
      by_cases h3 :
          pyStrip (((pyStrip text).take limit).take
            (findCut ((pyStrip text).take limit) + 1).toNat) ≠ []
      · rw [if_pos h3]
        exact le_trans (pyStrip_length_le _) (le_trans (take_length_le_self _ _) hhead)
      · rw [if_neg h3]
        exact le_trans (pyStrip_length_le _) hhead
    · rw [if_neg h2]
      by_cases h4 : rfind ((pyStrip text).take limit) [' '] > 0
      · rw [if_pos h4]
        exact le_trans (pyStrip_length_le _) (le_trans (take_length_le_self _ _) hhead)
      · rw [if_neg h4]
        exact le_trans (pyStrip_length_le _) hhead

/-- C2 counterexample: for the input `"ab.c"` (whose first 300 characters
contain the terminal marker `'.'` at index 2), the fallback truncation
returns the input unchanged, which ends with `'c'` — not with the rightmost
marker.  (The function returns any stripped input of length ≤ 300 as is.) -/
theorem truncate_marker_claim_fails_short :
    truncateKoreanSentenceBoundary ['a', 'b', '.', 'c'] 300 = ['a', 'b', '.', 'c'] ∧
      markerAt ['a', 'b', '.', 'c'] 2 = true ∧
      (truncateKoreanSentenceBoundary ['a', 'b', '.', 'c'] 300).getLast? = some 'c' ∧
      isTerminalMarker 'c' = false := by decide

/-- A 301-character input whose only sentence marker is the `'.'` at index 150. -/
def c2Input : List Char := List.replicate 150 'a' ++ '.' :: List.replicate 150 'b'

set_option maxRecDepth 100000 in
/-- C2 witness: on `c2Input` the truncation keeps exactly the 151-character
prefix ending at the marker. -/
theorem truncate_ends_at_rightmost_marker_witness :
    truncateKoreanSentenceBoundary c2Input 300 = (pyStrip c2Input).take 151 ∧
      ((pyStrip c2Input).take 151).getLast? = some '.' :=
  truncate_ends_at_rightmost_marker c2Input 150 '.' (by decide) (by decide)
    (by decide) (by decide) (by decide)

/-- C7 (amended): the fallback truncation returns any already-stripped,
already-within-limit string unchanged. -/
theorem truncate_within_limit_id (s : List Char) (limit : Nat)
    (hs : pyStrip s = s) (hlen : s.length ≤ limit) :
    truncateKoreanSentenceBoundary s limit = s := by
  simp only [truncateKoreanSentenceBoundary, hs]
  rw [if_pos hlen]

/-- C7 witness. -/
theorem truncate_within_limit_id_witness :
    truncateKoreanSentenceBoundary ['a', 'b'] 300 = ['a', 'b'] :=
  truncate_within_limit_id ['a', 'b'] 300 (by decide) (by decide)

/-- C7 counterexample: an input within the limit that carries surrounding
whitespace is returned stripped, hence changed. -/
theorem truncate_changes_padded_input :
    ([' ', 'a'] : List Char).length ≤ 300 ∧
      truncateKoreanSentenceBoundary [' ', 'a'] 300 ≠ [' ', 'a'] := by decide

end TestChatPy

namespace TestChatPy

/-! ### The bounded summarization pipeline (`app.py`) -/

/-- The generative capability (one chat-completion call): the prompt is
mapped either to the returned message content (`ok`, with `None` content
modelled as the empty string) or to a raised exception message (`error`). -/
abbrev Oracle := List Char → Except (List Char) (List Char)

/-- Detail string of the `HTTPException` raised by `get_openai_client`
(`app.py` lines 13-20) when `OPENAI_API_KEY` is unset. -/
def noApiKeyMsg : List Char := "OPENAI_API_KEY가 설정되지 않았습니다.".toList

/-- The prompt built by `_summarize_with_openai` (`app.py` lines 159-164). -/
def summaryHelperPrompt (text : List Char) : List Char :=
  ("당신은 회의/상담/대화 내용을 정리해 주는 한국어 요약 도우미입니다.\n- 핵심만 3~5줄 정도로 요약해 주세요.\n- 중요한 결정 사항과 TODO가 있다면 함께 적어 주세요.\n\n원문:\n").toList ++ text

/-- `f"(OpenAI 요약 오류: {e})"` (`app.py` line 177). -/
def openaiErrorMsg (e : List Char) : List Char :=
  "(OpenAI 요약 오류: ".toList ++ e ++ [')']

/-- The `try` body plus `except` handler of `_summarize_with_openai`:
the completion result is stripped, and a raised capability exception is
caught and turned into the fixed error string. -/
def absorbedCompletion (complete : Oracle) (text : List Char) : List Char :=
  match complete (summaryHelperPrompt text) with
  | Except.ok content => pyStrip content
  | Except.error e => openaiErrorMsg e

/-- `_summarize_with_openai(text)` (`app.py` lines 157-177).  The
`get_openai_client()` call sits outside the `try` block, so a missing API
key (modelled by `apiKey = false`) raises; every capability failure inside
the `try` block is absorbed by `absorbedCompletion`. -/
def summarizeWithOpenai (apiKey : Bool) (complete : Oracle) (text : List Char) :
    Except (List Char) (List Char) :=
  if apiKey then Except.ok (absorbedCompletion complete text)
  else Except.error noApiKeyMsg

/-- The first prompt of `_summarize_with_openai_300` (`app.py` lines 188-194). -/
def base300Prompt (text : List Char) : List Char :=
  ("당신은 상담/대화 내용을 정리하는 한국어 요약가입니다.\n- 결과는 반드시 300자 이내로 작성하세요.\n- 문장이 중간에 끊기지 않도록 자연스럽게 마무리하세요.\n- 핵심만 간결하게 3~5문장으로 요약하세요.\n\n원문:\n").toList ++ text

/-- The second prompt (`app.py` lines 199-202). -/
def retry300Prompt (summary : List Char) : List Char :=
  ("아래 요약을 문장이 끊기지 않게 자연스럽게 다듬되, 반드시 300자 이내로 줄여주세요.\n\n요약:\n").toList ++ summary

/-- The third prompt (`app.py` lines 208-211). -/
def retry300Prompt2 (summary2 : List Char) : List Char :=
  ("반드시 300자 이내로, 문장 마무리를 완결형으로 작성하세요. 불릿/번호 없이 문장으로만.\n\n요약:\n").toList ++ summary2

/-- `_summarize_with_openai_300(text)` (`app.py` lines 179-215), written in
the `Except` monad so that an exception raised by any of the three
`_summarize_with_openai` calls would propagate to the caller.  The second
component of the result counts the calls made to the generative capability. -/
def summarizeWithOpenai300 (apiKey : Bool) (complete : Oracle) (text : List Char) :
    Except (List Char) (List Char × Nat) := do
  let summary ← summarizeWithOpenai apiKey complete (base300Prompt text)
  if summary.length ≤ 300 then return (summary, 1)
  else
    let summary2 ← summarizeWithOpenai apiKey complete (retry300Prompt summary)
    if summary2.length ≤ 300 then return (summary2, 2)
    else
      let s3 ← summarizeWithOpenai apiKey complete (retry300Prompt2 summary2)
      return (truncateKoreanSentenceBoundary (pyStrip s3) 300, 3)

/-- The value computed by `_summarize_with_openai_300` when the API key is
configured (helper for the proofs; proven equal to the pipeline below). -/
def summarize300Run (complete : Oracle) (text : List Char) : List Char × Nat :=
  if (absorbedCompletion complete (base300Prompt text)).length ≤ 300 then
    (absorbedCompletion complete (base300Prompt text), 1)
  else if (absorbedCompletion complete (retry300Prompt
      (absorbedCompletion complete (base300Prompt text)))).length ≤ 300 then
    (absorbedCompletion complete (retry300Prompt
      (absorbedCompletion complete (base300Prompt text))), 2)
  else
    (truncateKoreanSentenceBoundary (pyStrip (absorbedCompletion complete (retry300Prompt2
      (absorbedCompletion complete (retry300Prompt
        (absorbedCompletion complete (base300Prompt text))))))) 300, 3)

theorem summarize300_true_eq (complete : Oracle) (text : List Char) :
    summarizeWithOpenai300 true complete text = Except.ok (summarize300Run complete text) := by
  unfold summarizeWithOpenai300 summarizeWithOpenai summarize300Run
  by_cases h1 : (absorbedCompletion complete (base300Prompt text)).length ≤ 300
  · simp [h1, Bind.bind, Except.bind, Pure.pure, Except.pure]
  · by_cases h2 : (absorbedCompletion complete (retry300Prompt
        (absorbedCompletion complete (base300Prompt text)))).length ≤ 300
    · simp [h1, h2, Bind.bind, Except.bind, Pure.pure, Except.pure]
    · simp [h1, h2, Bind.bind, Except.bind, Pure.pure, Except.pure]

theorem summarize300Run_fst_length (complete : Oracle) (text : List Char) :
    (summarize300Run complete text).1.length ≤ 300 := by
  unfold summarize300Run
  by_cases h1 : (absorbedCompletion complete (base300Prompt text)).length ≤ 300
  · rw [if_pos h1]; exact h1
  · rw [if_neg h1]
    by_cases h2 : (absorbedCompletion complete (retry300Prompt
        (absorbedCompletion complete (base300Prompt text)))).length ≤ 300
    · rw [if_pos h2]; exact h2
    · rw [if_neg h2]; exact truncate_length_le _ _

/-- C1: with the API key configured, for every transcript and every oracle
behavior the pipeline terminates normally and its summary never exceeds 300
characters. -/
theorem summarize_pipeline_within_300 (complete : Oracle) (text : List Char) :
    ∃ r n, summarizeWithOpenai300 true complete text = Except.ok (r, n) ∧
      r.length ≤ 300 :=
  ⟨(summarize300Run complete text).1, (summarize300Run complete text).2,
    by rw [summarize300_true_eq], summarize300Run_fst_length complete text⟩

/-- C6 (amended, `app.py` side): with the API key configured, the bounded
summarization pipeline returns normally for every oracle behavior — every
capability failure is absorbed inside `_summarize_with_openai` and never
propagates as an exception. -/
theorem generative_failures_absorbed (complete : Oracle) (text : List Char) :
    ∃ p, summarizeWithOpenai300 true complete text = Except.ok p :=
  ⟨summarize300Run complete text, summarize300_true_eq complete text⟩

end TestChatPy

namespace TestChatPy

/-- The fixed sentinel `"(분석할 내용이 없습니다.)"` (`app.py` line 137). -/
def sentinelNoContent : List Char := "(분석할 내용이 없습니다.)".toList

/-- `f"(요약 중 오류 발생: {str(e)})"` (`app.py` line 143). -/
def summaryFallbackErrorMsg (e : List Char) : List Char :=
  "(요약 중 오류 발생: ".toList ++ e ++ [')']

/-- Step 4 of `summarize_audio` (`app.py` lines 136-143): the summary starts
as the sentinel; only when the combined text strips to something non-empty is
`_summarize_with_openai_300` invoked, with any exception caught and turned
into an error string.  The second component counts generative-capability
calls. -/
def summarizeAudioSummary (apiKey : Bool) (complete : Oracle) (combined : List Char) :
    List Char × Nat :=
  if pyStrip combined ≠ [] then
    match summarizeWithOpenai300 apiKey complete combined with
    | Except.ok p => p
    | Except.error e => (summaryFallbackErrorMsg e, 0)
  else (sentinelNoContent, 0)

/-- `summarize_text_only` (`app.py` lines 152-155): unconditionally hands the
stripped body text to `_summarize_with_openai_300` — there is no empty-input
guard on this endpoint. -/
def summarizeTextOnly (apiKey : Bool) (complete : Oracle) (text : List Char) :
    Except (List Char) (List Char × Nat) :=
  summarizeWithOpenai300 apiKey complete (pyStrip text)

/-- C5 (amended): in the audio-summarize endpoint, every transcript that is
empty or whitespace-only yields the fixed sentinel and zero calls to the
generative capability. -/
theorem empty_transcript_sentinel_no_calls (apiKey : Bool) (complete : Oracle)
    (combined : List Char) (h : pyStrip combined = []) :
    summarizeAudioSummary apiKey complete combined = (sentinelNoContent, 0) := by
  unfold summarizeAudioSummary
  rw [if_neg (by simp [h])]

/-- C5 witness: a whitespace-only combined transcript. -/
theorem empty_transcript_sentinel_no_calls_witness :
    summarizeAudioSummary true (fun _ => Except.ok []) [' '] = (sentinelNoContent, 0) :=
  empty_transcript_sentinel_no_calls true (fun _ => Except.ok []) [' '] (by decide)

/-- C5 counterexample: the text-only endpoint performs a generative call even
on the empty transcript and does not return the sentinel (the claim fails for
`summarize_text_only`, which has no empty-input guard). -/
theorem text_only_empty_calls_capability :
    summarizeTextOnly true (fun _ => Except.ok ['o', 'k']) [] =
        Except.ok (['o', 'k'], 1) ∧
      (['o', 'k'] : List Char) ≠ sentinelNoContent ∧ (1 : Nat) ≠ 0 :=
  ⟨rfl, by decide, by decide⟩

end TestChatPy

namespace TestChatPy

/-! ### Transcript merging in `summarize_audio` (`app.py` lines 99-134) -/

/-- One parsed chat-log entry of `msg_data`.  The Python dict carries keys
`from` (called `sender` here since `from` is a Lean keyword), `text`, and a
client-supplied `timestamp`; `summarize_audio` reads only `from` and `text`. -/
structure ChatMsg where
  sender : List Char
  text : List Char
  timestamp : Nat
deriving DecidableEq

/-- `f"{m.get('from', '?')}: {m.get('text', '')}"` (`app.py` line 125). -/
def chatLine (m : ChatMsg) : List Char :=
  m.sender ++ ':' :: ' ' :: m.text

/-- `chat_lines` / `chat_str` (`app.py` lines 124-129): keep entries with
truthy (non-empty) text, render them, and join with newlines. -/
def chatStr (ms : List ChatMsg) : List Char :=
  joinLines ((ms.filter (fun m => m.text ≠ [])).map chatLine)

/-- `"\n\n[채팅 로그]\n"` — the chat-log section header (`app.py` line 131). -/
def chatLogHeader : List Char := "\n\n[채팅 로그]\n".toList

/-- `combined_text` (`app.py` lines 122-134): the transcript text, followed —
when a chat log is present — by the chat-log section.  No timestamp is ever
consulted. -/
def combinedText (transcript : List Char) (chatMessages : List ChatMsg) : List Char :=
  if chatMessages ≠ [] then
    if transcript ≠ [] then transcript ++ chatLogHeader ++ chatStr chatMessages
    else chatStr chatMessages
  else transcript

/-- The two-speaker transcript of `summarize_audio` (`app.py` lines 109-114):
`"\n".join([f"user: {user_text}".strip(), f"cnsler: {cnsler_text}".strip()]).strip()`. -/
def dualTranscript (userText cnslerText : List Char) : List Char :=
  pyStrip (joinLines [pyStrip ("user: ".toList ++ userText),
    pyStrip ("cnsler: ".toList ++ cnslerText)])

/-- A timestamped entry as described by the specification's Reconciler. -/
structure TsEntry where
  text : List Char
  timestamp : Nat
  typed : Bool
deriving DecidableEq

/-- Modelled from the spec: "Stable-sort by `timestamp` ascending; entries
with equal timestamps retain relative insertion order" (§4.2 step 2) — a
stable insertion sort, used to state what the claim expects the merge to
produce. -/
def insertByTs (e : TsEntry) : List TsEntry → List TsEntry
  | [] => [e]
  | x :: xs => if x.timestamp < e.timestamp then x :: insertByTs e xs else e :: x :: xs

/-- Modelled from the spec: the timestamp-sorted merge of all entry batches. -/
def specStableMerge : List TsEntry → List TsEntry
  | [] => []
  | e :: es => insertByTs e (specStableMerge es)

/-- The transcript of the C3 scenario: transcribed entries with timestamps
150 (`"bravo"`) and 250 (`"charlie"`). -/
def c3Transcript : List Char := dualTranscript "bravo".toList "charlie".toList

/-- The chat log of the C3 scenario: typed entries with timestamps
100 (`"alpha"`) and 300 (`"delta"`). -/
def c3Chat : List ChatMsg :=
  [⟨"u1".toList, "alpha".toList, 100⟩, ⟨"u2".toList, "delta".toList, 300⟩]

/-- C3 counterexample: the spec's stable sort would order the four texts as
alpha(100), bravo(150), charlie(250), delta(300); but in the transcript that
`summarize_audio` actually builds, the ts-150 text (`bravo`) appears before
the ts-100 text (`alpha`) — the code appends the whole chat log after the
whole speech transcript and never sorts by timestamp. -/
theorem merge_not_timestamp_sorted :
    ((specStableMerge [⟨"alpha".toList, 100, true⟩, ⟨"delta".toList, 300, true⟩,
        ⟨"bravo".toList, 150, false⟩, ⟨"charlie".toList, 250, false⟩]).map
      (fun e => e.timestamp) = [100, 150, 250, 300]) ∧
      0 ≤ pyFind (combinedText c3Transcript c3Chat) "bravo".toList ∧
      pyFind (combinedText c3Transcript c3Chat) "bravo".toList <
        pyFind (combinedText c3Transcript c3Chat) "alpha".toList := by decide

theorem chatLines_map_retime (g : ChatMsg → ChatMsg)
    (hg : ∀ m, (g m).sender = m.sender ∧ (g m).text = m.text) :
    ∀ ms : List ChatMsg,
      ((ms.map g).filter (fun m => m.text ≠ [])).map chatLine =
        (ms.filter (fun m => m.text ≠ [])).map chatLine := by
  intro ms
  induction ms with
  | nil => rfl
  | cons m rest ih =>
      rw [List.map_cons, List.filter_cons, List.filter_cons]
      obtain ⟨hs, ht⟩ := hg m
      by_cases hm : m.text ≠ []
      · rw [if_pos (by simpa [ht] using hm), if_pos (by simpa using hm)]
        rw [List.map_cons, List.map_cons, ih]
        congr 1
        unfold chatLine
        rw [hs, ht]
      · rw [if_neg (by simpa [ht] using hm), if_neg (by simpa using hm)]
        exact ih

/-- C3 (amended): the merged transcript is plain concatenation — the
transcript text followed by the chat-log section, each block in its given
order — and it is entirely independent of the entries' timestamps. -/
theorem combined_text_concatenates (transcript : List Char) (ms : List ChatMsg) :
    (ms ≠ [] → transcript ≠ [] →
      combinedText transcript ms = transcript ++ chatLogHeader ++ chatStr ms) ∧
    (∀ f : ChatMsg → Nat,
      combinedText transcript (ms.map (fun m => ⟨m.sender, m.text, f m⟩)) =
        combinedText transcript ms) := by
  constructor
  · intro h1 h2
    unfold combinedText
    rw [if_pos h1, if_pos h2]
  · intro f
    have hcs : chatStr (ms.map (fun m => (⟨m.sender, m.text, f m⟩ : ChatMsg))) =
        chatStr ms := by
      unfold chatStr
      exact congrArg joinLines
        (chatLines_map_retime (fun m => ⟨m.sender, m.text, f m⟩) (fun m => ⟨rfl, rfl⟩) ms)
    unfold combinedText
    by_cases h : ms ≠ []
    · rw [if_pos (by simpa using h), if_pos h, hcs]
    · rw [if_neg (by simpa using h), if_neg h]

/-- C3 witness for the amended claim. -/
theorem combined_text_concatenates_witness :
    combinedText ['x'] [⟨['u'], ['y'], 5⟩] =
      ['x'] ++ chatLogHeader ++ chatStr [⟨['u'], ['y'], 5⟩] :=
  (combined_text_concatenates ['x'] [⟨['u'], ['y'], 5⟩]).1 (by decide) (by decide)

end TestChatPy

namespace TestChatPy

/-! ### The `ai_msg` message store (`ai_db.py`) -/

/-- One element of `msg_data.content`:
`{ "speaker": ..., "text": ..., "type": "chat", "timestamp": ... }`. -/
structure AiEntry where
  speaker : List Char
  text : List Char
  type : List Char
  timestamp : Nat
deriving DecidableEq

/-- The JSON value stored under the `content` key of `msg_data`.  Rows
written by this code always carry a list; `jstr` and `jother` model the
defensively handled cases of a string or any other JSON value (including a
missing key or `None`). -/
inductive JVal where
  | jlist : List AiEntry → JVal
  | jstr : List Char → JVal
  | jother : JVal
deriving DecidableEq

/-- The defensive extraction of `append_message` (`ai_db.py` lines 68-77)
and `append_chat_content` (`chat_msg_db.py` lines 97-100): the `content`
value if it is a list, `[]` for a string or anything else. -/
def contentOf : JVal → List AiEntry
  | JVal.jlist l => l
  | JVal.jstr _ => []
  | JVal.jother => []

/-- `(msg_data or {}).get("content") or []` in `upsert_bot_msg`
(`ai_db.py` line 47): falsy values (missing key, `None`, empty list, empty
string) become `[]`; any other value is stored as is. -/
def coalesceContent : JVal → JVal
  | JVal.jlist l => JVal.jlist l
  | JVal.jstr s => if s = [] then JVal.jlist [] else JVal.jstr s
  | JVal.jother => JVal.jlist []

/-- One row of the `ai_msg` table (the serial `ai_id` is omitted).
`msg_data` is represented by the value of its `content` key. -/
structure AiRow where
  cnsl_id : Int
  member_id : List Char
  msg_data : JVal
  summary : Option (List Char)
  created_at : Nat
  updated_at : Nat
deriving DecidableEq

/-- The `ai_msg` table: at most one row per `(cnsl_id, member_id)` pair,
as enforced by the `ON CONFLICT (cnsl_id, member_id)` upsert. -/
def AiDb := Int × List Char → Option AiRow

/-- `get_bot_msg` (`ai_db.py` lines 29-40). -/
def get_bot_msg (db : AiDb) (cnslId : Int) (memberId : List Char) : Option AiRow :=
  db (cnslId, memberId)

/-- `upsert_bot_msg` (`ai_db.py` lines 43-63): one atomic
insert-or-update of the row keyed by `(cnsl_id, member_id)`.  On conflict,
`msg_data` and `updated_at` are overwritten and
`summary = COALESCE(EXCLUDED.summary, ai_msg.summary)`; the Python-side
`summary or None` turns an empty summary argument into SQL `NULL`.
Returns the updated table and the `RETURNING` row. -/
def upsert_bot_msg (db : AiDb) (cnslId : Int) (memberId : List Char)
    (msgData : JVal) (summary : Option (List Char)) (now : Nat) : AiDb × AiRow :=
  let summaryArg : Option (List Char) :=
    match summary with
    | some [] => none
    | s => s
  let stored := coalesceContent msgData
  let row :=
    match db (cnslId, memberId) with
    | some r =>
        { r with msg_data := stored,
                 summary := match summaryArg with
                   | some s => some s
                   | none => r.summary,
                 updated_at := now }
    | none =>
        { cnsl_id := cnslId, member_id := memberId, msg_data := stored,
          summary := summaryArg, created_at := now, updated_at := now }
  (fun k => if k = (cnslId, memberId) then some row else db k, row)

/-- `append_message` (`ai_db.py` lines 66-87): read the existing content
list (defensively), append the new `"chat"` entry stamped `tsMs`, and
upsert the whole document, passing no summary. -/
def append_message (db : AiDb) (cnslId : Int) (memberId : List Char)
    (speaker text : List Char) (tsMs now : Nat) : AiDb × AiRow :=
  let content :=
    match get_bot_msg db cnslId memberId with
    | some r => contentOf r.msg_data
    | none => []
  let content2 := content ++ [⟨speaker, text, "chat".toList, tsMs⟩]
  upsert_bot_msg db cnslId memberId (JVal.jlist content2) none now

/-- `update_summary` (`ai_db.py` lines 139-152): `UPDATE ai_msg SET
summary = %s, updated_at = CURRENT_TIMESTAMP WHERE cnsl_id = %s AND
member_id = %s RETURNING *`; yields `none` (and leaves the table unchanged)
when no row matches. -/
def update_summary (db : AiDb) (cnslId : Int) (memberId : List Char)
    (summary : List Char) (now : Nat) : AiDb × Option AiRow :=
  match db (cnslId, memberId) with
  | none => (db, none)
  | some r =>
      let r2 := { r with summary := some summary, updated_at := now }
      (fun k => if k = (cnslId, memberId) then some r2 else db k, some r2)

/-- The entry one `append_message` call constructs from
`(speaker, text, tsMs, now)`. -/
def mkChatEntry (call : List Char × List Char × Nat × Nat) : AiEntry :=
  ⟨call.1, call.2.1, "chat".toList, call.2.2.1⟩

/-- `append_message` invoked once per element of `calls`, left to right. -/
def appendRun (db : AiDb) (cnslId : Int) (memberId : List Char) :
    List (List Char × List Char × Nat × Nat) → AiDb
  | [] => db
  | c :: rest =>
      appendRun (append_message db cnslId memberId c.1 c.2.1 c.2.2.1 c.2.2.2).1
        cnslId memberId rest

theorem append_message_step {db : AiDb} {cnslId : Int} {memberId : List Char}
    {r : AiRow} (sp tx : List Char) (ts now : Nat)
    (h : db (cnslId, memberId) = some r) :
    (append_message db cnslId memberId sp tx ts now).1 (cnslId, memberId) =
      some { r with
        msg_data := JVal.jlist (contentOf r.msg_data ++ [⟨sp, tx, "chat".toList, ts⟩]),
        updated_at := now } := by
  unfold append_message upsert_bot_msg get_bot_msg
  rw [h]
  simp [coalesceContent]

theorem appendRun_content (cnslId : Int) (memberId : List Char) :
    ∀ (calls : List (List Char × List Char × Nat × Nat)) (db : AiDb) (r0 : AiRow),
      db (cnslId, memberId) = some r0 →
      ∃ r1, (appendRun db cnslId memberId calls) (cnslId, memberId) = some r1 ∧
        contentOf r1.msg_data = contentOf r0.msg_data ++ calls.map mkChatEntry := by
  intro calls
  induction calls with
  | nil => intro db r0 h; exact ⟨r0, h, by simp⟩
  | cons c rest ih =>
      intro db r0 h
      obtain ⟨r1, h1, h2⟩ := ih _ _ (append_message_step c.1 c.2.1 c.2.2.1 c.2.2.2 h)
      refine ⟨r1, h1, ?_⟩
      rw [h2]
      simp [contentOf, mkChatEntry]

end TestChatPy

namespace TestChatPy

/-! ### The `chat_msg` message store (`chat_msg_db.py`) -/

/-- The JSON object `{"summary": ..., "summary_line": ...}` that
`upsert_chat_msg_summary` serializes into the `summary` column. -/
structure SummaryPayload where
  summary : List Char
  summary_line : List Char
deriving DecidableEq

/-- The `summary` column of `chat_msg` holds either plain text (written by
`append_chat_content`) or the JSON payload (written by
`upsert_chat_msg_summary`). -/
inductive ChatSummaryVal where
  | raw : List Char → ChatSummaryVal
  | jsonPayload : SummaryPayload → ChatSummaryVal
deriving DecidableEq

/-- One row of the `chat_msg` table (the serial `chat_id` is omitted).
`msg_data` is represented by the value of its `content` key. -/
structure ChatRow where
  cnsl_id : Int
  member_id : List Char
  cnsler_id : List Char
  role : List Char
  msg_data : JVal
  summary : Option ChatSummaryVal
  created_at : Nat
deriving DecidableEq

/-- The `chat_msg` table, keyed by `cnsl_id` (the code always reads and
updates the single earliest row for a `cnsl_id`). -/
def ChatDb := Int → Option ChatRow

/-- Python `s.lower()`. -/
def pyLower (l : List Char) : List Char := l.map Char.toLower

/-- `role_val = (request_role or "user").strip().lower() or "user"`
(`chat_msg_db.py` line 83). -/
def roleVal (requestRole : Option (List Char)) : List Char :=
  let base :=
    match requestRole with
    | some s => if s = [] then "user".toList else s
    | none => "user".toList
  let r := pyLower (pyStrip base)
  if r = [] then "user".toList else r

/-- `append_chat_content` (`chat_msg_db.py` lines 60-146), restricted to the
`chat_msg` table (its additional `UPDATE cnsl_reg SET cnsl_todo_yn = 'N'`
when `speaker == "user"` touches only the separate `cnsl_reg` bookkeeping
table, never the message document).  An existing row gets the entry appended
to its content (with `summary` overwritten only for a truthy `summary_val`,
and `role` filled only when previously empty); otherwise a fresh row is
inserted with exactly that entry.  `tsMs` is `int(time.time()*1000)` used
for the entry, `now` the database clock for `created_at`. -/
def append_chat_content (db : ChatDb) (cnslId : Int)
    (memberEmail cnslerEmail : List Char) (speaker text : List Char)
    (summaryVal : Option (List Char)) (requestRole : Option (List Char))
    (tsMs now : Nat) : ChatDb × ChatRow :=
  let entry : AiEntry := ⟨speaker, text, "chat".toList, tsMs⟩
  let role_val := roleVal requestRole
  match db cnslId with
  | some r =>
      let content := contentOf r.msg_data
      let content2 := content ++ [entry]
      let r2 := { r with
        msg_data := JVal.jlist content2,
        summary :=
          match summaryVal with
          | some s => if s = [] then r.summary else some (ChatSummaryVal.raw s)
          | none => r.summary,
        role := if r.role = [] then role_val else r.role }
      (fun k => if k = cnslId then some r2 else db k, r2)
  | none =>
      let row : ChatRow :=
        ⟨cnslId, memberEmail, cnslerEmail, role_val, JVal.jlist [entry],
          summaryVal.map ChatSummaryVal.raw, now⟩
      (fun k => if k = cnslId then some row else db k, row)

/-- The arguments of one `append_chat_content` call. -/
structure ChatCall where
  speaker : List Char
  text : List Char
  summaryVal : Option (List Char)
  requestRole : Option (List Char)
  tsMs : Nat
  now : Nat
deriving DecidableEq

/-- The entry one `append_chat_content` call constructs. -/
def mkChatCallEntry (c : ChatCall) : AiEntry :=
  ⟨c.speaker, c.text, "chat".toList, c.tsMs⟩

/-- `append_chat_content` invoked once per element of `calls`, left to right. -/
def chatAppendRun (db : ChatDb) (cnslId : Int) (memberEmail cnslerEmail : List Char) :
    List ChatCall → ChatDb
  | [] => db
  | c :: rest =>
      chatAppendRun (append_chat_content db cnslId memberEmail cnslerEmail
          c.speaker c.text c.summaryVal c.requestRole c.tsMs c.now).1
        cnslId memberEmail cnslerEmail rest

theorem append_chat_step {db : ChatDb} {cnslId : Int} {r : ChatRow}
    (me ce sp tx : List Char) (sv rr : Option (List Char)) (ts now : Nat)
    (h : db cnslId = some r) :
    ∃ r2, (append_chat_content db cnslId me ce sp tx sv rr ts now).1 cnslId = some r2 ∧
      contentOf r2.msg_data = contentOf r.msg_data ++ [⟨sp, tx, "chat".toList, ts⟩] := by
  unfold append_chat_content
  rw [h]
  refine ⟨{ r with
      msg_data := JVal.jlist (contentOf r.msg_data ++ [⟨sp, tx, "chat".toList, ts⟩]),
      summary :=
        match sv with
        | some s => if s = [] then r.summary else some (ChatSummaryVal.raw s)
        | none => r.summary,
      role := if r.role = [] then roleVal rr else r.role }, by simp, by simp [contentOf]⟩

theorem chatAppendRun_content (cnslId : Int) (me ce : List Char) :
    ∀ (calls : List ChatCall) (db : ChatDb) (r0 : ChatRow),
      db cnslId = some r0 →
      ∃ r1, (chatAppendRun db cnslId me ce calls) cnslId = some r1 ∧
        contentOf r1.msg_data = contentOf r0.msg_data ++ calls.map mkChatCallEntry := by
  intro calls
  induction calls with
  | nil => intro db r0 h; exact ⟨r0, h, by simp⟩
  | cons c rest ih =>
      intro db r0 h
      obtain ⟨r2, hr2, hc2⟩ :=
        append_chat_step me ce c.speaker c.text c.summaryVal c.requestRole c.tsMs c.now h
      obtain ⟨r1, h1, h2⟩ := ih _ _ hr2
      refine ⟨r1, h1, ?_⟩
      rw [h2, hc2]
      simp [mkChatCallEntry]

end TestChatPy

namespace TestChatPy

/-- C4: in both stores, appending N times sequentially to a fresh
conversation id yields a document whose content list is exactly the N
constructed entries, in call order. -/
theorem message_store_append_n_entries :
    (∀ (db : AiDb) (cnslId : Int) (memberId : List Char)
        (calls : List (List Char × List Char × Nat × Nat)),
      db (cnslId, memberId) = none → calls ≠ [] →
      ∃ r, (appendRun db cnslId memberId calls) (cnslId, memberId) = some r ∧
        contentOf r.msg_data = calls.map mkChatEntry) ∧
    (∀ (db : ChatDb) (cnslId : Int) (me ce : List Char) (calls : List ChatCall),
      db cnslId = none → calls ≠ [] →
      ∃ r, (chatAppendRun db cnslId me ce calls) cnslId = some r ∧
        contentOf r.msg_data = calls.map mkChatCallEntry) := by
  constructor
  · intro db cnslId memberId calls hfresh hne
    cases calls with
    | nil => exact absurd rfl hne
    | cons c rest =>
        have hstep : (append_message db cnslId memberId c.1 c.2.1 c.2.2.1 c.2.2.2).1
            (cnslId, memberId) =
            some { cnsl_id := cnslId, member_id := memberId,
                   msg_data := JVal.jlist [mkChatEntry c], summary := none,
                   created_at := c.2.2.2, updated_at := c.2.2.2 } := by
          unfold append_message upsert_bot_msg get_bot_msg
          rw [hfresh]
          simp [coalesceContent, mkChatEntry]
        obtain ⟨r1, h1, h2⟩ := appendRun_content cnslId memberId rest _ _ hstep
        exact ⟨r1, h1, by rw [h2]; simp [contentOf]⟩
  · intro db cnslId me ce calls hfresh hne
    cases calls with
    | nil => exact absurd rfl hne
    | cons c rest =>
        have hstep : (append_chat_content db cnslId me ce c.speaker c.text
            c.summaryVal c.requestRole c.tsMs c.now).1 cnslId =
            some ⟨cnslId, me, ce, roleVal c.requestRole,
              JVal.jlist [mkChatCallEntry c],
              c.summaryVal.map ChatSummaryVal.raw, c.now⟩ := by
          unfold append_chat_content
          rw [hfresh]
          simp [mkChatCallEntry]
        obtain ⟨r1, h1, h2⟩ := chatAppendRun_content cnslId me ce rest _ _ hstep
        exact ⟨r1, h1, by rw [h2]; simp [contentOf]⟩

/-- The empty `ai_msg` table. -/
def emptyAiDb : AiDb := fun _ => none

/-- C4 witness: two appends to conversation `(1, "m")` of the empty store. -/
theorem message_store_append_n_entries_witness :
    ∃ r, (appendRun emptyAiDb 1 ['m'] [(['u'], ['h'], 1, 2), (['a'], ['i'], 3, 4)])
        (1, ['m']) = some r ∧
      contentOf r.msg_data =
        [(['u'], ['h'], 1, 2), (['a'], ['i'], 3, 4)].map mkChatEntry :=
  message_store_append_n_entries.1 emptyAiDb 1 ['m']
    [(['u'], ['h'], 1, 2), (['a'], ['i'], 3, 4)] rfl (by decide)

/-- C9: `update_summary` leaves the table unchanged and returns `none` when
no document exists for the id (no error raised), and on an existing document
it changes nothing but the summary and `updated_at` fields — in particular
`msg_data` (the entries) is untouched, and no other key of the table is
affected. -/
theorem update_summary_frame (db : AiDb) (cnslId : Int) (memberId : List Char)
    (summary : List Char) (now : Nat) :
    (db (cnslId, memberId) = none →
      update_summary db cnslId memberId summary now = (db, none)) ∧
    (∀ r, db (cnslId, memberId) = some r →
      ∃ r2, update_summary db cnslId memberId summary now =
          (fun k => if k = (cnslId, memberId) then some r2 else db k, some r2) ∧
        r2.msg_data = r.msg_data ∧ r2.summary = some summary ∧
        r2.created_at = r.created_at ∧ r2.member_id = r.member_id ∧
        r2.cnsl_id = r.cnsl_id) := by
  constructor
  · intro h
    unfold update_summary
    rw [h]
  · intro r h
    refine ⟨{ r with summary := some summary, updated_at := now },
      ?_, rfl, rfl, rfl, rfl, rfl⟩
    unfold update_summary
    rw [h]

/-- A one-row `ai_msg` table used by the witnesses. -/
def aiRow0 : AiRow := ⟨1, ['m'], JVal.jlist [], some ['s'], 0, 0⟩

/-- The table holding exactly `aiRow0` under key `(1, "m")`. -/
def aiDb0 : AiDb := fun k => if k = (1, ['m']) then some aiRow0 else none

/-- C9 witness: updating the summary of the one existing document. -/
theorem update_summary_frame_witness :
    ∃ r2, update_summary aiDb0 1 ['m'] ['z'] 7 =
        (fun k => if k = (1, ['m']) then some r2 else aiDb0 k, some r2) ∧
      r2.msg_data = aiRow0.msg_data ∧ r2.summary = some ['z'] ∧
      r2.created_at = aiRow0.created_at ∧ r2.member_id = aiRow0.member_id ∧
      r2.cnsl_id = aiRow0.cnsl_id :=
  (update_summary_frame aiDb0 1 ['m'] ['z'] 7).2 aiRow0 (by decide)

/-- C10: appending a message to a document whose summary is non-null leaves
the stored summary unchanged — `append_message` passes no summary, so the
upsert's `COALESCE(EXCLUDED.summary, ai_msg.summary)` keeps the old value. -/
theorem append_preserves_summary (db : AiDb) (cnslId : Int) (memberId : List Char)
    (speaker text : List Char) (tsMs now : Nat) (r : AiRow) (s : List Char)
    (h : db (cnslId, memberId) = some r) (hs : r.summary = some s) :
    ∃ r2, (append_message db cnslId memberId speaker text tsMs now).1
        (cnslId, memberId) = some r2 ∧ r2.summary = some s := by
  refine ⟨{ r with
      msg_data := JVal.jlist (contentOf r.msg_data ++
        [⟨speaker, text, "chat".toList, tsMs⟩]),
      updated_at := now }, ?_, hs⟩
  exact append_message_step speaker text tsMs now h

/-- C10 witness: appending to the document whose summary is `"s"`. -/
theorem append_preserves_summary_witness :
    ∃ r2, (append_message aiDb0 1 ['m'] ['u'] ['h'] 5 6).1 (1, ['m']) = some r2 ∧
      r2.summary = some ['s'] :=
  append_preserves_summary aiDb0 1 ['m'] ['u'] ['h'] 5 6 aiRow0 ['s']
    (by decide) (by decide)

end TestChatPy

namespace TestChatPy

/-! ### The AI-chat summary endpoint (`ai_chat.py` `post_summary`) and
`upsert_chat_msg_summary` (`chat_msg_db.py`) -/

/-- `"```"`, the markdown code-fence marker. -/
def fence3 : List Char := "```".toList

/-- Does `hay` end with `needle`? -/
def endsWithL (hay needle : List Char) : Bool :=
  startsWithL hay.reverse needle.reverse

/-- Python `s.rstrip(".")`: remove trailing `'.'` characters. -/
def rstripDots (l : List Char) : List Char :=
  (l.reverse.dropWhile (fun c => c = '.')).reverse

/-- The markdown-fence removal of `post_summary` (`ai_chat.py` lines
151-158): strip the content, drop an opening ```` ``` ```` line and a
trailing ```` ``` ````, and strip again. -/
def stripMdFences (content : List Char) : List Char :=
  let raw := pyStrip content
  let raw :=
    if startsWithL raw fence3 then
      let lines := raw.splitOn '\n'
      if lines.length > 1 then joinLines (lines.drop 1) else joinLines [raw.drop 3]
    else raw
  let raw :=
    if endsWithL (pyRStrip raw) fence3 then
      pyRStrip ((pyRStrip raw).take ((pyRStrip raw).length - 3))
    else raw
  pyStrip raw

/-- `"상담을 진행했습니다."` — the required ending of `cnsl_content`. -/
def endPhrase : List Char := "상담을 진행했습니다.".toList

/-- `"에 대한 상담을 진행했습니다."` — the suffix appended when missing. -/
def suffixPhrase : List Char := "에 대한 상담을 진행했습니다.".toList

/-- The parsing section of `post_summary` (`ai_chat.py` lines 151-174).
`jsonLoads` models Python's `json.loads` followed by `.get` of the two keys
and `str()` of their values: `some (s, c)` is a successful parse of a dict,
`none` any `json.loads`/`.get` exception (caught by the inner `except`,
which falls back to slicing the raw text).  Returns `(summary, cnsl_content)`. -/
def postSummaryParse
    (jsonLoads : List Char → Option (Option (List Char) × Option (List Char)))
    (content : List Char) : List Char × List Char :=
  let json_str := stripMdFences content
  let pair :=
    match jsonLoads json_str with
    | some (s, c) =>
        (match s with | some s0 => pyStrip s0 | none => [],
         match c with | some c0 => pyStrip c0 | none => [])
    | none =>
        let cnsl0 := pyRStrip (json_str.take 80)
        (json_str.take 300,
         if endsWithL cnsl0 endPhrase then cnsl0
         else (pyRStrip (rstripDots cnsl0) ++ suffixPhrase).take 80)
  let summary := if pair.1 = [] then json_str.take 300 else pair.1
  (summary, pair.2)

/-- `f"SUMMARY_FAILED: {e}"` — detail of the `HTTPException(500)` raised by
`post_summary` when the generative call fails (`ai_chat.py` line 176). -/
def summaryFailedMsg (e : List Char) : List Char :=
  "SUMMARY_FAILED: ".toList ++ e

/-- `post_summary` (`ai_chat.py` lines 116-183), restricted to the `ai_msg`
store (the `cnsl_reg` access validation is an external-table concern).  The
oracle is applied to the rendered conversation (a fixed Korean system prompt
accompanies it in the real request).  Note the generative call sits in a
`try` block whose handler re-raises as `HTTPException(500, SUMMARY_FAILED)`:
a capability failure here is surfaced to the caller as an error. -/
def post_summary_run (complete : Oracle)
    (jsonLoads : List Char → Option (Option (List Char) × Option (List Char)))
    (db : AiDb) (cnslId : Int) (memberId : List Char) (now : Nat) :
    Except (List Char) (AiDb × AiRow) :=
  match get_bot_msg db cnslId memberId with
  | none => Except.error "해당 상담 기록이 없습니다.".toList
  | some row =>
      let texts := (contentOf row.msg_data).map (fun x => x.speaker ++ ':' :: ' ' :: x.text)
      let fullText := joinLines texts
      if pyStrip fullText = [] then Except.error "요약할 대화가 없습니다.".toList
      else
        match complete fullText with
        | Except.error e => Except.error (summaryFailedMsg e)
        | Except.ok content =>
            let summary := (postSummaryParse jsonLoads content).1
            match update_summary db cnslId memberId summary now with
            | (db2, some r2) => Except.ok (db2, r2)
            | (_, none) => Except.error "summary 저장 실패".toList

/-- The `{"summary": ..., "summary_line": ...}` payload built by
`upsert_chat_msg_summary` (`chat_msg_db.py` line 198): the summary text is
clamped to 300 characters, the line is only stripped. -/
def chatSummaryPayload (summary : List Char) (summaryLine : Option (List Char)) :
    SummaryPayload :=
  ⟨summary.take 300, pyStrip (summaryLine.getD [])⟩

/-- `upsert_chat_msg_summary` (`chat_msg_db.py` lines 177-218), restricted
to the `chat_msg` table (the conditional `cnsl_todo_yn` update touches only
`cnsl_reg`).  Replaces `msg_data.content` wholesale and stores the JSON
summary payload; inserts a fresh `role='user'` row when none exists. -/
def upsert_chat_msg_summary (db : ChatDb) (cnslId : Int)
    (memberEmail cnslerEmail : List Char) (summary : List Char)
    (msgDataContent : JVal) (summaryLine : Option (List Char)) (now : Nat) :
    ChatDb × Option ChatRow :=
  if cnslId ≤ 0 then (db, none)
  else
    let content_list := contentOf msgDataContent
    let payload := chatSummaryPayload summary summaryLine
    match db cnslId with
    | some r =>
        let r2 := { r with
          msg_data := JVal.jlist content_list,
          summary := some (ChatSummaryVal.jsonPayload payload) }
        (fun k => if k = cnslId then some r2 else db k, some r2)
    | none =>
        let row : ChatRow := ⟨cnslId, memberEmail, cnslerEmail, "user".toList,
          JVal.jlist content_list, some (ChatSummaryVal.jsonPayload payload), now⟩
        (fun k => if k = cnslId then some row else db k, some row)

end TestChatPy

namespace TestChatPy

/-- A one-message conversation document used by the `post_summary` scenarios. -/
def aiRowChat : AiRow :=
  ⟨1, ['m'], JVal.jlist [⟨"user".toList, "hi".toList, "chat".toList, 1⟩], none, 0, 0⟩

/-- The store holding exactly `aiRowChat` under key `(1, "m")`. -/
def aiDbChat : AiDb := fun k => if k = (1, ['m']) then some aiRowChat else none

/-- C6 counterexample: when the generative call inside `post_summary` fails,
the failure is propagated to the caller as an `HTTPException(500,
"SUMMARY_FAILED: ...")` — a generative-capability failure that is *not*
absorbed, contradicting the claim that only storage failures are reported. -/
theorem post_summary_propagates_generative_failure :
    post_summary_run (fun _ => Except.error "boom".toList) (fun _ => none)
        aiDbChat 1 ['m'] 9 =
      Except.error "SUMMARY_FAILED: boom".toList := rfl

/-- C8 (amended): the clamped storage paths do bound the summary text by 300
characters — `upsert_chat_msg_summary` truncates the payload's summary to
300, and the JSON-parse-failure fallback of `post_summary` slices to 300. -/
theorem stored_summary_clamped_bounds (summary : List Char)
    (summaryLine : Option (List Char)) :
    (chatSummaryPayload summary summaryLine).summary.length ≤ 300 ∧
    (∀ content : List Char,
      ((postSummaryParse (fun _ => none) content).1).length ≤ 300) := by
  constructor
  · exact List.length_take_le _ _
  · intro content
    simp only [postSummaryParse]
    split
    · exact List.length_take_le _ _
    · exact List.length_take_le _ _

/-- C8 witness for the amended claim. -/
theorem stored_summary_clamped_bounds_witness :
    (chatSummaryPayload ['a'] (some ['b'])).summary.length ≤ 300 ∧
    (∀ content : List Char,
      ((postSummaryParse (fun _ => none) content).1).length ≤ 300) :=
  stored_summary_clamped_bounds ['a'] (some ['b'])

/-- A 301-character summary value. -/
def c8Summary : List Char := List.replicate 301 'a'

/-- The raw completion content: valid JSON carrying the 301-character
summary, `\x7b"summary": "aaa…a", "cnsl_content": "x"\x7d`. -/
def c8Raw : List Char :=
  "\x7b\"summary\": \"".toList ++ c8Summary ++ "\", \"cnsl_content\": \"x\"\x7d".toList

/-- `json.loads` on exactly `c8Raw` yields the dict with the 301-character
summary string and `cnsl_content = "x"`. -/
def c8JsonLoads : List Char → Option (Option (List Char) × Option (List Char)) :=
  fun s => if s = c8Raw then some (some c8Summary, some ['x']) else none

end TestChatPy

namespace TestChatPy

set_option maxRecDepth 1000000 in
/-- C8 counterexample: (a) when the model returns valid JSON whose summary
field has 301 characters, `post_summary` stores it unclamped via
`update_summary` — the persisted summary exceeds 300 characters; (b) the
`summary_line` gist stored by `upsert_chat_msg_summary` is only stripped,
never clamped: an 81-character line is persisted with 81 > 80 characters. -/
theorem summary_bounds_violated :
    ((post_summary_run (fun _ => Except.ok c8Raw) c8JsonLoads aiDbChat 1 ['m'] 9).toOption.map
        (fun p => (p.2.summary, p.2.msg_data))) =
      some (some c8Summary, aiRowChat.msg_data) ∧
    300 < c8Summary.length ∧
    ((chatSummaryPayload [] (some (List.replicate 81 'x'))).summary_line).length = 81 := by
  refine ⟨rfl, by simp [c8Summary], by decide⟩

end TestChatPy
